import Mathlib

/-!
Verification of the gravitational-lensing deflection engine of
`lensing_visualization`.

The definitions below are a shallow embedding of the fragment shader
(`src/unnamed/part_001`, the deflection evaluator and the per-model mass
integrators) and of the HSW lookup builder (`src/js/ui.js`,
`updateHSWLookup`).  Machine floats are modelled as real numbers; the
deflection vector `normalize(distVec) * s` is modelled by its scalar
factor `s` (the magnitude up to the unit direction), which is what every
claim under scrutiny talks about.
-/

namespace Lensing

noncomputable section

open Real Filter Finset

/-- Shader, `main`, lines 244/252/264: every model derives its scale radius
as `max(u_spread * 0.24, 0.01)`. -/
def rvOf (spread : ℝ) : ℝ := max (spread * 0.24) 0.01

/-- Shader, `main`, line 216: `r = length(distVec)` for the aspect-corrected
offset from the lens center. -/
def sampleRadius (dx dy : ℝ) : ℝ := Real.sqrt (dx * dx + dy * dy)

/-- Shader, `main`, lines 218 and 236-239 (Point Mass branch):
`baseStrength = u_mass * 0.03`, `lensStrength = baseStrength * depth`,
`deflection = normalize(distVec) * lensStrength / (r + 0.005)`. -/
def pointMassMagnitude (mass depth r : ℝ) : ℝ :=
  mass * 0.03 * depth / (r + 0.005)

/-- Shader, `nfw_deflection`, lines 62-84: `g(x) = ln(x/2) + term_geo` with
the three-branch geometric term (inside / outside / band around 1). -/
def nfw_g (x : ℝ) : ℝ :=
  Real.log (x * 0.5) +
    (if x < 0.999 then
      Real.log ((1 + Real.sqrt (1 - x * x)) / x) / Real.sqrt (1 - x * x)
    else if 1.001 < x then
      Real.arccos (1 / x) / Real.sqrt (x * x - 1)
    else 1)

/-- Shader, `nfw_deflection`, lines 58-88: center guard `x < 0.0001 → 0`,
otherwise `g(x) / x`. -/
def nfw_deflection (x : ℝ) : ℝ :=
  if x < 0.0001 then 0 else nfw_g x / x

/-- Shader, `main`, lines 241-249 (NFW branch):
`nfwStrength = baseStrength * depth * 6.0`, `x = r / rs`,
deflection factor `nfwStrength * nfw_deflection(x)`. -/
def nfwBranchMagnitude (mass spread depth r : ℝ) : ℝ :=
  mass * 0.03 * depth * 6 * nfw_deflection (r / rvOf spread)

/-- Shader, `void_toy_deflection`, lines 108-110 (zone 1, constant core):
`mass = 0.5 * d_in * x * x` for `x < 0.05`. -/
def voidMassZone1 (d_in x : ℝ) : ℝ := 0.5 * d_in * x * x

/-- Shader, `void_toy_deflection`, lines 113-129 (zone 2, quadratic rise):
core mass plus base strip plus the analytic rise integral. -/
def voidMassZone2 (d_in d_wall x : ℝ) : ℝ :=
  0.5 * d_in * 0.05 * 0.05 +
    0.5 * d_in * (x * x - 0.05 * 0.05) +
    (d_wall - d_in) * (1 / ((1 - 0.05) * (1 - 0.05))) *
      ((x - 0.05) * (x - 0.05) * (x - 0.05) * (x - 0.05) * 0.25 +
        0.05 * ((x - 0.05) * (x - 0.05) * (x - 0.05)) * (1 / 3))

/-- Shader, `void_toy_deflection`, lines 134-145 and 163-172: the total mass
inside `x = 1` (`M_inner = m_core + m_base_full + m_rise_full`), recomputed
verbatim in zones 3 and 4. -/
def voidMInner (d_in d_wall : ℝ) : ℝ :=
  0.5 * d_in * 0.05 * 0.05 +
    0.5 * d_in * (1 - 0.05 * 0.05) +
    (d_wall - d_in) * (1 / ((1 - 0.05) * (1 - 0.05))) *
      (((1 - 0.05) * (1 - 0.05) * (1 - 0.05) * (1 - 0.05)) * 0.25 +
        0.05 * ((1 - 0.05) * (1 - 0.05) * (1 - 0.05)) * (1 / 3))

/-- Shader, `void_toy_deflection`, lines 133-158 (zone 3, quadratic wall
drop): `q = (x - 1) / w` and the analytic wall integral up to `q`. -/
def voidMassZone3 (d_in d_wall w x : ℝ) : ℝ :=
  voidMInner d_in d_wall +
    d_wall * w *
      (((x - 1) / w) +
        ((x - 1) / w) * ((x - 1) / w) * (0.5 * w - 1) +
        ((x - 1) / w) * ((x - 1) / w) * ((x - 1) / w) * (1 / 3 - (2 / 3) * w) +
        ((x - 1) / w) * ((x - 1) / w) * ((x - 1) / w) * ((x - 1) / w) * 0.25 * w)

/-- Shader, `void_toy_deflection`, lines 162-182 (zone 4, outside the wall):
`M_inner` plus the full wall integral (`q = 1`). -/
def voidMassZone4 (d_in d_wall w : ℝ) : ℝ :=
  voidMInner d_in d_wall +
    d_wall * w * (1 + (0.5 * w - 1) + (1 / 3 - (2 / 3) * w) + 0.25 * w)

/-- Shader, `void_toy_deflection`, lines 105-183: the piecewise cumulative
mass, selected by the zone of `x` (`x_core = 0.05`, `x_out = 1 + w`). -/
def voidMass (d_in d_wall w x : ℝ) : ℝ :=
  if x < 0.05 then voidMassZone1 d_in x
  else if x < 1 then voidMassZone2 d_in d_wall x
  else if x < 1 + w then voidMassZone3 d_in d_wall w x
  else voidMassZone4 d_in d_wall w

/-- Shader, `void_toy_deflection`, lines 96-186: center guard
`r < 0.0001 → 0`, otherwise `lensing_strength * mass / x` with
`lensing_strength = 3.0` and `x = r / rv`. -/
def void_toy_deflection (r rv d_in d_wall w : ℝ) : ℝ :=
  if r < 0.0001 then 0 else 3 * voidMass d_in d_wall w (r / rv) / (r / rv)

/-- Shader, `main`, lines 250-260 (Void Toy branch): `rv = rvOf spread`,
`d_in = u_mass - 1.0`, `voidStrength = 0.15 * depth`; the wall width is
passed through to `void_toy_deflection` unmodified. -/
def voidBranchMagnitude (mass spread wallDensity wallWidth depth r : ℝ) : ℝ :=
  0.15 * depth *
    void_toy_deflection r (rvOf spread) (mass - 1) wallDensity wallWidth

/-- Shader, `main`, lines 262-273 (HSW branch): `max_r = 20 * rv`,
`tex_coord = r / max_r`, `alpha = 0` out of range and the negated table
lookup within range.  The texture sampling/interpolation is abstracted as a
function `lookup : ℝ → ℝ` of the normalized coordinate. -/
def hswBranchAlpha (lookup : ℝ → ℝ) (r rv : ℝ) : ℝ :=
  if r / (20 * rv) ≤ 1 then -(lookup (r / (20 * rv))) else 0

/-- Shader, `main`, lines 262-277: `hswStrength = 0.33 * depth`, deflection
factor `hswStrength * alpha`. -/
def hswBranchMagnitude (lookup : ℝ → ℝ) (spread depth r : ℝ) : ℝ :=
  0.33 * depth * hswBranchAlpha lookup r (rvOf spread)

/-- The four physics models selectable in the shader. -/
inductive LensModel
  | pointMass
  | nfw
  | voidToy
  | hsw
deriving DecidableEq

/-- Shader, `main`, lines 236-278: the model dispatch over the float uniform
`u_model` by thresholds 0.5, 1.5, 2.5, with the HSW branch as the trailing
`else`. -/
def dispatchModel (m : ℝ) : LensModel :=
  if m < 0.5 then LensModel.pointMass
  else if m < 1.5 then LensModel.nfw
  else if m < 2.5 then LensModel.voidToy
  else LensModel.hsw

/-- `app.js`, `defaultConfig` (lines 20-39): the configuration record whose
fields the engine reads. -/
structure LensConfig where
  mass : ℝ
  spread : ℝ
  model : ℝ
  wallDensity : ℝ
  wallWidth : ℝ
  hswDeltac : ℝ
  hswRs : ℝ
  hswAlpha : ℝ
  hswBeta : ℝ

/-- `ui.js`, `updateHSWLookup`, `getDensityHSW` (lines 137-146): the HSW 3D
density contrast, `dc` below the center guard, else
`dc * (1 - x^alpha) / (1 + x^beta)` with `x = r_3d / rs`. -/
def getDensityHSW (dc rs a b r3d : ℝ) : ℝ :=
  if r3d < 0.0001 then dc
  else dc * (1 - (r3d / rs) ^ a) / (1 + (r3d / rs) ^ b)

/-- `ui.js`, `updateHSWLookup`: the table resolution `size = 8192`. -/
def hswSize : ℕ := 8192

/-- `ui.js`, `updateHSWLookup`: `max_r = 20.0`. -/
def hswMaxR : ℝ := 20

/-- `ui.js`, `updateHSWLookup`: the radial bin width `dr = max_r / size`. -/
def hswDr : ℝ := hswMaxR / 8192

/-- `ui.js`, `updateHSWLookup`: the depth step `dz = z_max / z_steps` with
`z_max = max_r` and `z_steps = 1000`. -/
def hswDz : ℝ := hswMaxR / 1000

/-- `ui.js`, `updateHSWLookup`, line 152: the bin midpoint radius
`R = (i + 0.5) * dr`. -/
def hswR (i : ℕ) : ℝ := ((i : ℝ) + 0.5) * hswDr

/-- `ui.js`, `updateHSWLookup`, lines 155-163: the surface density at `R`,
the inner depth loop summed over `z = (j + 0.5) * dz` and multiplied by
`2.0 * dz` for line-of-sight symmetry. -/
def hswSigma (dc rs a b R : ℝ) : ℝ :=
  (∑ j ∈ Finset.range 1000,
      getDensityHSW dc rs a b
        (Real.sqrt (R * R + ((j : ℝ) + 0.5) * hswDz * (((j : ℝ) + 0.5) * hswDz)))) *
    (2 * hswDz)

/-- `ui.js`, `updateHSWLookup`, lines 148-166: the running cylindrical-shell
mass accumulator, `current_mass_2d += sigma * R * dr` once per processed
bin; `hswMass p n` is its value after the first `n` bins. -/
def hswMass (dc rs a b : ℝ) : ℕ → ℝ
  | 0 => 0
  | n + 1 => hswMass dc rs a b n + hswSigma dc rs a b (hswR n) * hswR n * hswDr

/-- `ui.js`, `updateHSWLookup`, lines 168-174: the value stored at bin `i`:
`0` under the `R < 0.001` guard, else `|current_mass_2d / R|`. -/
def hswTableEntry (dc rs a b : ℝ) (i : ℕ) : ℝ :=
  if hswR i < 0.001 then 0 else |hswMass dc rs a b (i + 1) / hswR i|

/-- `ui.js`, `updateHSWLookup`, lines 113-126: the builder reads exactly the
four shape fields `hswDeltac, hswRs, hswAlpha, hswBeta` of the config. -/
def updateHSWLookup (c : LensConfig) (i : ℕ) : ℝ :=
  hswTableEntry c.hswDeltac c.hswRs c.hswAlpha c.hswBeta i

/-! ### Helper lemmas -/

/-- The Point-Mass branch magnitude is continuous in `r` at `0`, with limit
`mass * 0.03 * depth / 0.005`: the additive epsilon keeps the denominator
away from zero. -/
lemma pointMassMagnitude_tendsto (mass depth : ℝ) :
    Tendsto (fun r => pointMassMagnitude mass depth r) (nhds 0)
      (nhds (mass * 0.03 * depth / 0.005)) := by
  have h : ContinuousAt (fun r : ℝ => mass * 0.03 * depth / (r + 0.005)) 0 := by
    apply ContinuousAt.div
    · exact continuousAt_const
    · exact (continuous_id.add continuous_const).continuousAt
    · norm_num
  have := h.tendsto
  simpa [pointMassMagnitude] using this

/-! ### Claims -/

/-- C2.  End-to-end Point-Mass scenario: mass = 1, spread = 1, nearest layer
(depth = 1), sample point at distance r = 0.5 from the lens center (offset
(0.3, 0.4)); the deflection magnitude equals `0.03 / 0.505` exactly, hence
within 1e-6. -/
theorem c2_pointmass_end_to_end :
    pointMassMagnitude 1 1 (sampleRadius 0.3 0.4) = 0.03 / 0.505 ∧
      |pointMassMagnitude 1 1 (sampleRadius 0.3 0.4) - 0.03 / 0.505| < 1e-6 := by
  have hr : sampleRadius 0.3 0.4 = 0.5 := by
    have h : (0.3 : ℝ) * 0.3 + 0.4 * 0.4 = 0.5 ^ 2 := by norm_num
    rw [sampleRadius, h, Real.sqrt_sq (by norm_num : (0 : ℝ) ≤ 0.5)]
  constructor
  · rw [hr]; unfold pointMassMagnitude; norm_num
  · rw [hr]; unfold pointMassMagnitude; norm_num

/-- C1, counterexample.  The claim asserts the deflection magnitude tends to
0 as r → 0 for every model; for the Point Mass model with mass = 1 and
depth = 1 it instead tends to `0.03 / 0.005 = 6` (the epsilon-clamped
`lensStrength / (r + 0.005)` does not vanish at the center), so the claimed
limit statement is false. -/
theorem c1_pointmass_magnitude_not_vanishing :
    ¬ Tendsto (fun r => pointMassMagnitude 1 1 r) (nhds 0) (nhds 0) := by
  intro h
  have h6 := pointMassMagnitude_tendsto 1 1
  have h06 := tendsto_nhds_unique h h6
  norm_num at h06

/-- C1, amended.  No singular blow-up escapes the evaluator, but the limit
at r → 0 is 0 only for NFW and VoidToy (which return exactly 0 below their
small-radius guards): the Point Mass magnitude tends to the finite value
`mass·0.03·depth/0.005` and is bounded by it for r ≥ 0, and the HSW branch
magnitude is bounded by `0.33·depth·B` whenever the lookup table is bounded
by B. -/
theorem c1_amended_no_blowup :
    (∀ mass depth : ℝ,
        Tendsto (fun r => pointMassMagnitude mass depth r) (nhds 0)
          (nhds (mass * 0.03 * depth / 0.005))) ∧
      (∀ mass depth r : ℝ, 0 ≤ mass → 0 ≤ depth → 0 ≤ r →
        pointMassMagnitude mass depth r ≤ mass * 0.03 * depth / 0.005) ∧
      (∀ x : ℝ, x < 0.0001 → nfw_deflection x = 0) ∧
      (∀ r rv d_in d_wall w : ℝ, r < 0.0001 →
        void_toy_deflection r rv d_in d_wall w = 0) ∧
      (∀ (lookup : ℝ → ℝ) (B spread depth r : ℝ),
        (∀ t, |lookup t| ≤ B) → 0 ≤ depth →
        |hswBranchMagnitude lookup spread depth r| ≤ 0.33 * depth * B) := by
  refine ⟨pointMassMagnitude_tendsto, ?_, ?_, ?_, ?_⟩
  · intro mass depth r hm hd hr
    unfold pointMassMagnitude
    have ha : 0 ≤ mass * 0.03 * depth := by positivity
    gcongr
    linarith
  · intro x hx
    unfold nfw_deflection
    rw [if_pos hx]
  · intro r rv d_in d_wall w hr
    unfold void_toy_deflection
    rw [if_pos hr]
  · intro lookup B spread depth r hB hd
    have hB0 : 0 ≤ B := le_trans (abs_nonneg _) (hB 0)
    have halpha : |hswBranchAlpha lookup r (rvOf spread)| ≤ B := by
      unfold hswBranchAlpha
      split
      · simpa using hB _
      · simpa using hB0
    have hsplit : |hswBranchMagnitude lookup spread depth r|
        = 0.33 * depth * |hswBranchAlpha lookup r (rvOf spread)| := by
      unfold hswBranchMagnitude
      rw [abs_mul, abs_mul, abs_of_nonneg hd]
      norm_num
    rw [hsplit]
    have h33 : (0 : ℝ) ≤ 0.33 * depth := by positivity
    exact mul_le_mul_of_nonneg_left halpha h33

/-- C1, witness for the amended theorem at concrete inputs. -/
theorem c1_amended_no_blowup_witness :
    pointMassMagnitude 1 1 0 ≤ 1 * 0.03 * 1 / 0.005 ∧
      nfw_deflection 0 = 0 ∧
      void_toy_deflection 0 0.24 0 0.05 0.05 = 0 ∧
      |hswBranchMagnitude (fun _ => 1) 1 1 0| ≤ 0.33 * 1 * 1 :=
  ⟨c1_amended_no_blowup.2.1 1 1 0 (by norm_num) (by norm_num) (by norm_num),
   c1_amended_no_blowup.2.2.1 0 (by norm_num),
   c1_amended_no_blowup.2.2.2.1 0 0.24 0 0.05 0.05 (by norm_num),
   c1_amended_no_blowup.2.2.2.2 (fun _ => 1) 1 1 1 0
     (fun t => by norm_num) (by norm_num)⟩

/-- C3, counterexample.  In the band the shader returns
`g(x) = ln(x/2) + 1`, so `|g(0.999) − g(1)| = |ln 0.999| ≈ 1.0005e-3`,
which exceeds the claimed 1e-4 absolute tolerance. -/
theorem c3_tolerance_counterexample : |nfw_g 0.999 - nfw_g 1| > 1e-4 := by
  have h999 : nfw_g 0.999 = Real.log (0.999 * 0.5) + 1 := by
    unfold nfw_g
    rw [if_neg (by norm_num), if_neg (by norm_num)]
  have h1 : nfw_g 1 = Real.log (1 * 0.5) + 1 := by
    unfold nfw_g
    rw [if_neg (by norm_num), if_neg (by norm_num)]
  have hmul : Real.log (0.999 * 0.5) = Real.log 0.999 + Real.log 0.5 :=
    Real.log_mul (by norm_num) (by norm_num)
  have hdiff : nfw_g 0.999 - nfw_g 1 = Real.log 0.999 := by
    rw [h999, h1, hmul, one_mul]; ring
  have hexp : (0.999 : ℝ) < Real.exp (-1e-4) := by
    have := Real.add_one_le_exp (-1e-4)
    linarith
  have hlt : Real.log 0.999 < -1e-4 :=
    (Real.log_lt_iff_lt_exp (by norm_num)).mpr hexp
  rw [hdiff, abs_of_neg (by linarith : Real.log 0.999 < 0)]
  linarith

/-- C3, amended.  The third branch does return the exact limit 1 for the
geometric term throughout the band 0.999 ≤ x ≤ 1.001 (so
`g(x) = ln(x/2) + 1` there), and g is continuous across x = 1 within
1.1e-3 — not 1e-4 — absolute tolerance at the sampled points x = 0.999, 1,
1.001 (the true offsets are `|ln 0.999|` and `ln 1.001`, both ≈ 1.0e-3). -/
theorem c3_amended_band_and_continuity :
    (∀ x : ℝ, 0.999 ≤ x → x ≤ 1.001 → nfw_g x = Real.log (x * 0.5) + 1) ∧
      |nfw_g 0.999 - nfw_g 1| ≤ 1.1e-3 ∧ |nfw_g 1.001 - nfw_g 1| ≤ 1.1e-3 := by
  have hband : ∀ x : ℝ, 0.999 ≤ x → x ≤ 1.001 →
      nfw_g x = Real.log (x * 0.5) + 1 := by
    intro x hx1 hx2
    unfold nfw_g
    rw [if_neg (not_lt.mpr hx1), if_neg (not_lt.mpr hx2)]
  refine ⟨hband, ?_, ?_⟩
  · have hdiff : nfw_g 0.999 - nfw_g 1 = Real.log 0.999 := by
      rw [hband 0.999 (by norm_num) (by norm_num),
        hband 1 (by norm_num) (by norm_num),
        Real.log_mul (by norm_num) (by norm_num), one_mul]
      ring
    have hexp : Real.exp (-1.1e-3) ≤ 0.999 := by
      have h1 := Real.add_one_le_exp (1.1e-3 : ℝ)
      have hpos : (0 : ℝ) < 1.1e-3 + 1 := by norm_num
      have hinv : (Real.exp (1.1e-3 : ℝ))⁻¹ ≤ (1.1e-3 + 1)⁻¹ := by
        apply inv_anti₀ hpos h1
      rw [Real.exp_neg]
      calc (Real.exp (1.1e-3 : ℝ))⁻¹ ≤ (1.1e-3 + 1)⁻¹ := hinv
        _ ≤ 0.999 := by norm_num
    have hge : (-1.1e-3 : ℝ) ≤ Real.log 0.999 :=
      (Real.le_log_iff_exp_le (by norm_num)).mpr hexp
    have hneg : Real.log 0.999 < 0 := Real.log_neg (by norm_num) (by norm_num)
    rw [hdiff, abs_of_neg hneg]
    linarith
  · have hdiff : nfw_g 1.001 - nfw_g 1 = Real.log 1.001 := by
      rw [hband 1.001 (by norm_num) (by norm_num),
        hband 1 (by norm_num) (by norm_num),
        Real.log_mul (by norm_num) (by norm_num), one_mul]
      ring
    have hub : Real.log 1.001 ≤ 1.001 - 1 :=
      Real.log_le_sub_one_of_pos (by norm_num)
    have hlb : 0 ≤ Real.log 1.001 := Real.log_nonneg (by norm_num)
    rw [hdiff, abs_of_nonneg hlb]
    linarith

/-- C3, witness for the amended theorem: the band equation instantiated at
x = 1. -/
theorem c3_amended_band_witness : nfw_g 1 = Real.log (1 * 0.5) + 1 :=
  c3_amended_band_and_continuity.1 1 (by norm_num) (by norm_num)

/-- C4.  The VoidToy cumulative mass is continuous at the three zone
boundaries: the adjacent zone formulas agree exactly (jump 0 ≤ 1e-6) at
x = 0.05, x = 1 and x = 1 + w, for all d_in, d_wall ∈ [−1, 1] and
w ∈ (0, 0.5]. -/
theorem c4_voidtoy_mass_continuity :
    ∀ d_in d_wall w : ℝ, -1 ≤ d_in → d_in ≤ 1 → -1 ≤ d_wall → d_wall ≤ 1 →
      0 < w → w ≤ 0.5 →
      |voidMassZone1 d_in 0.05 - voidMassZone2 d_in d_wall 0.05| ≤ 1e-6 ∧
        |voidMassZone2 d_in d_wall 1 - voidMassZone3 d_in d_wall w 1| ≤ 1e-6 ∧
        |voidMassZone3 d_in d_wall w (1 + w) - voidMassZone4 d_in d_wall w| ≤ 1e-6 := by
  intro d_in d_wall w _ _ _ _ hw _
  have hw0 : w ≠ 0 := ne_of_gt hw
  refine ⟨?_, ?_, ?_⟩
  · have h12 : voidMassZone1 d_in 0.05 = voidMassZone2 d_in d_wall 0.05 := by
      unfold voidMassZone1 voidMassZone2
      ring
    rw [h12, sub_self, abs_zero]
    norm_num
  · have h2 : voidMassZone2 d_in d_wall 1 = voidMInner d_in d_wall := by
      unfold voidMassZone2 voidMInner
      ring
    have h3 : voidMassZone3 d_in d_wall w 1 = voidMInner d_in d_wall := by
      unfold voidMassZone3
      norm_num
    rw [h2, h3, sub_self, abs_zero]
    norm_num
  · have h34 : voidMassZone3 d_in d_wall w (1 + w) = voidMassZone4 d_in d_wall w := by
      unfold voidMassZone3 voidMassZone4
      rw [show (1 + w - 1 : ℝ) = w by ring, div_self hw0]
      ring
    rw [h34, sub_self, abs_zero]
    norm_num

/-- C4, witness at the spec's regression parameters d_in = 0.2,
d_wall = 0.05, w = 0.05. -/
theorem c4_voidtoy_mass_continuity_witness :
    |voidMassZone1 0.2 0.05 - voidMassZone2 0.2 0.05 0.05| ≤ 1e-6 ∧
      |voidMassZone2 0.2 0.05 1 - voidMassZone3 0.2 0.05 0.05 1| ≤ 1e-6 ∧
      |voidMassZone3 0.2 0.05 0.05 (1 + 0.05) - voidMassZone4 0.2 0.05 0.05| ≤ 1e-6 :=
  c4_voidtoy_mass_continuity 0.2 0.05 0.05 (by norm_num) (by norm_num)
    (by norm_num) (by norm_num) (by norm_num) (by norm_num)

/-- The running-mass accumulator of the HSW builder loop equals the partial
sum of the cylindrical shell contributions. -/
lemma hswMass_eq_sum (dc rs a b : ℝ) (n : ℕ) :
    hswMass dc rs a b n
      = ∑ k ∈ Finset.range n, hswSigma dc rs a b (hswR k) * hswR k * hswDr := by
  induction n with
  | zero => simp [hswMass]
  | succ n ih => simp [hswMass, Finset.sum_range_succ, ih]

/-- Every bin midpoint radius clears the `R < 0.001` storage guard:
`R_i ≥ 0.5 · 20/8192 > 0.001`. -/
lemma hswR_ge (i : ℕ) : (0.001 : ℝ) ≤ hswR i := by
  unfold hswR hswDr hswMaxR
  have hi : (0 : ℝ) ≤ (i : ℝ) := Nat.cast_nonneg i
  nlinarith

/-- C5.  For each of the 8192 bins the builder stores exactly
`|Σ_{k ≤ i} Σ(R_k)·R_k·dr / R_i|`, with midpoint radii `R_i = (i+0.5)·dr`,
`dr = 20/8192` and depth step `dz = 20/1000` (the surface density
`hswSigma` being the 1000-step midpoint line-of-sight sum doubled for
symmetry); the `R < 0.001` storage guard never fires. -/
theorem c5_hsw_builder_formula :
    ∀ dc rs a b : ℝ, ∀ i : ℕ, i < hswSize →
      hswTableEntry dc rs a b i
          = |(∑ k ∈ Finset.range (i + 1),
              hswSigma dc rs a b (hswR k) * hswR k * hswDr) / hswR i| ∧
        hswR i = ((i : ℝ) + 0.5) * (20 / 8192) ∧
        hswDr = 20 / 8192 ∧ hswDz = 20 / 1000 := by
  intro dc rs a b i _
  refine ⟨?_, rfl, rfl, rfl⟩
  unfold hswTableEntry
  rw [if_neg (not_lt.mpr (hswR_ge i)), hswMass_eq_sum]

/-- C5, witness at bin 0 with concrete shape parameters. -/
theorem c5_hsw_builder_formula_witness :
    hswTableEntry (-0.8) 0.9 4 15 0
        = |(∑ k ∈ Finset.range (0 + 1),
            hswSigma (-0.8) 0.9 4 15 (hswR k) * hswR k * hswDr) / hswR 0| ∧
      hswR 0 = ((0 : ℕ) + 0.5 : ℝ) * (20 / 8192) ∧
      hswDr = 20 / 8192 ∧ hswDz = 20 / 1000 :=
  c5_hsw_builder_formula (-0.8) 0.9 4 15 0 (by norm_num [hswSize])

/-- C6.  The evaluator's HSW branch returns exactly zero deflection for
out-of-range queries `tex = r / (20·rv) > 1`, and the negated interpolated
table value times the strength for `tex ≤ 1`. -/
theorem c6_hsw_consumption :
    ∀ (lookup : ℝ → ℝ) (spread depth r : ℝ),
      (1 < r / (20 * rvOf spread) →
        hswBranchMagnitude lookup spread depth r = 0) ∧
      (r / (20 * rvOf spread) ≤ 1 →
        hswBranchMagnitude lookup spread depth r
          = 0.33 * depth * (-(lookup (r / (20 * rvOf spread))))) := by
  intro lookup spread depth r
  constructor
  · intro h
    unfold hswBranchMagnitude hswBranchAlpha
    rw [if_neg (not_le.mpr h), mul_zero]
  · intro h
    unfold hswBranchMagnitude hswBranchAlpha
    rw [if_pos h]

/-- C6, witness: with spread = 1 the table covers r ≤ 4.8; the query r = 10
is out of range and yields zero, the query r = 1 is in range and yields the
negated constant table value scaled by 0.33. -/
theorem c6_hsw_consumption_witness :
    hswBranchMagnitude (fun _ => 5) 1 1 10 = 0 ∧
      hswBranchMagnitude (fun _ => 5) 1 1 1 = 0.33 * 1 * (-(5 : ℝ)) := by
  have hrv : rvOf 1 = 0.24 := by
    unfold rvOf
    rw [max_eq_left (by norm_num)]
    norm_num
  constructor
  · exact (c6_hsw_consumption (fun _ => 5) 1 1 10).1 (by rw [hrv]; norm_num)
  · exact (c6_hsw_consumption (fun _ => 5) 1 1 1).2 (by rw [hrv]; norm_num)

/-- With spread = 1 the clamped scale radius is 0.24. -/
lemma rvOf_one : rvOf 1 = 0.24 := by
  unfold rvOf
  rw [max_eq_left (by norm_num)]
  norm_num

/-- Evaluation of `void_toy_deflection` in the exterior zone
(`x ≥ max(1, 1 + w)`). -/
lemma void_toy_deflection_outside (r rv d_in d_wall w : ℝ)
    (hr : ¬ r < 0.0001) (hx1 : 1 ≤ r / rv) (hxw : 1 + w ≤ r / rv) :
    void_toy_deflection r rv d_in d_wall w
      = 3 * voidMassZone4 d_in d_wall w / (r / rv) := by
  unfold void_toy_deflection voidMass
  rw [if_neg hr, if_neg (by push_neg; linarith), if_neg (not_lt.mpr hx1),
    if_neg (not_lt.mpr hxw)]

/-- C7, counterexample.  There is no strictly positive floor that the
wallWidth parameter is clamped to before use: the Void-Toy branch passes
`u_wall_width` through unmodified, and for every candidate floor f > 0 the
evaluator's output at wallWidth = 0 differs from the output at the clamped
value `max 0 f = f` (witnessed at mass = 1, spread = 1, wallDensity = 1,
depth = 1, r = 0.24·(2+f)). -/
theorem c7_wallwidth_not_clamped :
    ¬ ∃ f : ℝ, 0 < f ∧ ∀ mass spread wallDensity w depth r : ℝ,
        voidBranchMagnitude mass spread wallDensity w depth r
          = voidBranchMagnitude mass spread wallDensity (max w f) depth r := by
  rintro ⟨f, hf, h⟩
  have hx := h 1 1 1 0 1 (0.24 * (2 + f))
  have hxval : 0.24 * (2 + f) / 0.24 = 2 + f := by
    rw [mul_comm, mul_div_assoc, div_self (by norm_num : (0.24 : ℝ) ≠ 0), mul_one]
  have hr : ¬ (0.24 * (2 + f) < 0.0001) := by push_neg; nlinarith
  have hmax : max (0 : ℝ) f = f := max_eq_right hf.le
  rw [hmax] at hx
  unfold voidBranchMagnitude at hx
  rw [rvOf_one,
    void_toy_deflection_outside (0.24 * (2 + f)) 0.24 (1 - 1) 1 0 hr
      (by rw [hxval]; linarith) (by rw [hxval]; linarith),
    void_toy_deflection_outside (0.24 * (2 + f)) 0.24 (1 - 1) 1 f hr
      (by rw [hxval]; linarith) (by rw [hxval]; linarith),
    hxval] at hx
  unfold voidMassZone4 voidMInner at hx
  have h2f : (0 : ℝ) < 2 + f := by linarith
  field_simp at hx
  nlinarith [hx, hf, mul_pos hf hf]

/-- C7, amended.  The spread parameter really is clamped before every use
(`rv = max(spread·0.24, 0.01) ≥ 0.01`), but wallWidth is passed through
unclamped; no division by a non-positive wall width occurs anyway, because
the only division by w (the wall-zone integral, zone 3) is reached only
when `1 ≤ x < 1 + w`, which forces `w > 0`. -/
theorem c7_amended_clamp_and_safety :
    (∀ s : ℝ, 0.01 ≤ rvOf s) ∧
      (∀ d_in d_wall w x : ℝ, 1 ≤ x → x < 1 + w →
        0 < w ∧ voidMass d_in d_wall w x = voidMassZone3 d_in d_wall w x) := by
  constructor
  · intro s
    exact le_max_right _ _
  · intro d_in d_wall w x hx1 hxw
    refine ⟨by linarith, ?_⟩
    unfold voidMass
    rw [if_neg (by push_neg; linarith), if_neg (not_lt.mpr hx1), if_pos hxw]

/-- C7, witness for the amended theorem: spread = 0 is floored to 0.01, and
a wall-zone query at x = 1, w = 0.5 selects zone 3 with positive width. -/
theorem c7_amended_clamp_and_safety_witness :
    (0.01 : ℝ) ≤ rvOf 0 ∧
      (0 < (0.5 : ℝ) ∧ voidMass 0 1 0.5 1 = voidMassZone3 0 1 0.5 1) :=
  ⟨c7_amended_clamp_and_safety.1 0,
   c7_amended_clamp_and_safety.2 0 1 0.5 1 (by norm_num) (by norm_num)⟩

/-- C8, counterexample.  The unrecognized selector value 4 (outside the
encoded set {0,1,2,3}) falls into the trailing `else` of the dispatch and
runs the HSW branch, not the claimed Point Mass default. -/
theorem c8_unrecognized_selector_counterexample :
    dispatchModel 4 = LensModel.hsw ∧ LensModel.hsw ≠ LensModel.pointMass := by
  constructor
  · unfold dispatchModel
    rw [if_neg (by norm_num), if_neg (by norm_num), if_neg (by norm_num)]
  · decide

/-- C8, amended.  The dispatch is exhaustive over the four variants via the
thresholds 0.5, 1.5, 2.5: every selector below 0.5 (including all
unrecognized negative values) runs Point Mass, bands [0.5,1.5) and
[1.5,2.5) run NFW and Void Toy, and every selector ≥ 2.5 (including
unrecognized values such as 4) runs HSW — the release-mode fallback of the
trailing `else` is HSW, not Point Mass. -/
theorem c8_amended_dispatch :
    ∀ m : ℝ,
      (m < 0.5 → dispatchModel m = LensModel.pointMass) ∧
        (0.5 ≤ m → m < 1.5 → dispatchModel m = LensModel.nfw) ∧
        (1.5 ≤ m → m < 2.5 → dispatchModel m = LensModel.voidToy) ∧
        (2.5 ≤ m → dispatchModel m = LensModel.hsw) := by
  intro m
  refine ⟨?_, ?_, ?_, ?_⟩
  · intro h
    unfold dispatchModel
    rw [if_pos h]
  · intro h1 h2
    unfold dispatchModel
    rw [if_neg (not_lt.mpr h1), if_pos h2]
  · intro h1 h2
    unfold dispatchModel
    rw [if_neg (by push_neg; linarith), if_neg (not_lt.mpr h1), if_pos h2]
  · intro h
    unfold dispatchModel
    rw [if_neg (by push_neg; linarith), if_neg (by push_neg; linarith),
      if_neg (not_lt.mpr h)]

/-- C8, witness for the amended theorem: the recognized selectors 0 and 3
run Point Mass and HSW respectively. -/
theorem c8_amended_dispatch_witness :
    dispatchModel 0 = LensModel.pointMass ∧ dispatchModel 3 = LensModel.hsw :=
  ⟨(c8_amended_dispatch 0).1 (by norm_num),
   (c8_amended_dispatch 3).2.2.2 (by norm_num)⟩

/-- C9.  Rebuilding the HSW lookup twice with identical shape parameters
(hswDeltac, hswRs, hswAlpha, hswBeta) yields identical tables: every
stored entry is equal. -/
theorem c9_rebuild_deterministic :
    ∀ c1 c2 : LensConfig,
      c1.hswDeltac = c2.hswDeltac → c1.hswRs = c2.hswRs →
      c1.hswAlpha = c2.hswAlpha → c1.hswBeta = c2.hswBeta →
      ∀ i : ℕ, updateHSWLookup c1 i = updateHSWLookup c2 i := by
  intro c1 c2 h1 h2 h3 h4 i
  unfold updateHSWLookup
  rw [h1, h2, h3, h4]

/-- C9, witness: two runs on the default HSW configuration agree at bin 0. -/
theorem c9_rebuild_deterministic_witness :
    updateHSWLookup ⟨1, 1, 3, 0.05, 0.05, -0.8, 0.9, 4, 15⟩ 0
      = updateHSWLookup ⟨1, 1, 3, 0.05, 0.05, -0.8, 0.9, 4, 15⟩ 0 :=
  c9_rebuild_deterministic _ _ rfl rfl rfl rfl 0

/-- C10.  The table contents are a function of only the four HSW shape
fields: two configurations agreeing on them but differing in spread (the
other rebuild trigger) produce identical table entries. -/
theorem c10_table_independent_of_spread :
    ∀ c1 c2 : LensConfig,
      c1.hswDeltac = c2.hswDeltac → c1.hswRs = c2.hswRs →
      c1.hswAlpha = c2.hswAlpha → c1.hswBeta = c2.hswBeta →
      c1.spread ≠ c2.spread →
      ∀ i : ℕ, updateHSWLookup c1 i = updateHSWLookup c2 i := by
  intro c1 c2 h1 h2 h3 h4 _ i
  unfold updateHSWLookup
  rw [h1, h2, h3, h4]

/-- C10, witness: two configurations with spreads 1 and 2 but the same four
shape fields give the same entry at bin 0. -/
theorem c10_table_independent_of_spread_witness :
    updateHSWLookup ⟨1, 1, 3, 0.05, 0.05, -0.8, 0.9, 4, 15⟩ 0
      = updateHSWLookup ⟨1, 2, 3, 0.05, 0.05, -0.8, 0.9, 4, 15⟩ 0 :=
  c10_table_independent_of_spread
    ⟨1, 1, 3, 0.05, 0.05, -0.8, 0.9, 4, 15⟩
    ⟨1, 2, 3, 0.05, 0.05, -0.8, 0.9, 4, 15⟩ rfl rfl rfl rfl
    (by show (1 : ℝ) ≠ 2; norm_num) 0

end

end Lensing
